import Mathlib

/-!
Verification development for the gitlab_chatbot incremental synchronization
pipeline and hybrid retrieval engine.

This file shallowly embeds the Python source under `gitlab_chatbot/` as Lean
definitions and settles the spec claims against them:

* `gitlab_chatbot/workers/gitlab_utils.py` — remote client (`safe_get`,
  `get_commits`, `get_tree_entries`).
* `gitlab_chatbot/workers/files_fetcher.py` — `determine_file_changes`,
  `fetch_files`.
* `gitlab_chatbot/workers/files_processor.py` — `clean_text`, `chunk_content`,
  `process_file`.
* `gitlab_chatbot/workers/embed.py` — `embed_chunk`.
* `gitlab_chatbot/utils/hybrid_search.py` — `build_source_url`,
  `generate_rag_context`.
* `gitlab_chatbot/db/__init__.py` — generic CRUD: `get_resource` selects the
  FIRST matching row; `update_resource` and `delete_resource` likewise act on
  the FIRST matching row only; `list_resource` returns all matching rows;
  `create_resource` inserts one row.

Side-effecting DB code is embedded as explicit state passing over a `DB`
record; remote HTTP calls are embedded by passing the remote's responses as
explicit inputs.
-/

namespace GitlabChatbot

/-! ## Remote client: `safe_get` (gitlab_utils.py)

`safe_get` loops `for attempt in range(MAX_RETRIES)`; per attempt it issues the
GET. If the status is 429 (`GITLAB_RATE_LIMIT`) or `>= 500` it sleeps
`backoff ** attempt` seconds (`backoff = 2`) and continues; otherwise
`raise_for_status()` raises for an error status (4xx — 5xx never reaches it)
and the response is returned for a success status. After the loop it raises a
permanent `Exception`.

We embed the remote as `responses : Nat → Nat`, the status code the server
answers on attempt `i` (attempts numbered from 0). -/

def MAX_RETRIES : Nat := 5

def GITLAB_RATE_LIMIT : Nat := 429

/-- Statuses the `safe_get` loop retries on: rate limit or server error. -/
def retryable (status : Nat) : Bool :=
  status == GITLAB_RATE_LIMIT || status ≥ 500

/-- Statuses `response.raise_for_status()` raises on (4xx/5xx). -/
def raisesForStatus (status : Nat) : Bool :=
  400 ≤ status

/-- Outcome of a `safe_get` call: the returned response (attempt index and
status), an `HTTPError` from `raise_for_status` (attempt index and status), or
the permanent `Exception` after the retry ceiling. -/
inductive FetchOutcome where
  | success (attempt : Nat) (status : Nat)
  | httpError (attempt : Nat) (status : Nat)
  | exhausted
deriving DecidableEq, Repr

/-- The `safe_get` retry loop. `remaining` counts attempts left of the
`range(MAX_RETRIES)` window, `attempt` is the current attempt index.
The second component collects the back-off sleeps (`2 ** attempt`) performed,
in order. -/
def safeGetLoop (responses : Nat → Nat) : Nat → Nat → FetchOutcome × List Nat
  | _, 0 => (.exhausted, [])
  | attempt, remaining + 1 =>
    let s := responses attempt
    if retryable s then
      let r := safeGetLoop responses (attempt + 1) remaining
      (r.1, 2 ^ attempt :: r.2)
    else if raisesForStatus s then (.httpError attempt s, [])
    else (.success attempt s, [])

/-- `safe_get`, started at attempt 0 with the full `MAX_RETRIES` window.
Returns the outcome and the list of back-off sleeps performed. -/
def safe_get (responses : Nat → Nat) : FetchOutcome × List Nat :=
  safeGetLoop responses 0 MAX_RETRIES

/-! ## Persisted data model (models/document_db.py, workers/schema.py) -/

/-- `CheckpointState` enum (workers/schema.py). -/
inductive CheckpointState where
  | PROCESS_PENDING
  | PROCESSED
  | EMBEDDED
  | DELETED
  | PROCESS_ERROR
  | EMBED_ERROR
  | ERROR
deriving DecidableEq, Repr

/-- A row of the `checkpoints` table: `commit_id`, `file_path`, `state`,
`error_message` (unique on `(commit_id, file_path)`). -/
structure Checkpoint where
  commit_id : String
  file_path : String
  state : CheckpointState
  error_message : Option String := none
deriving DecidableEq, Repr

/-- A row of the `documents` table. The embedding vector is abstracted as a
list of integers (`none` until embedded); `has_tsv` records whether
`content_tsv` has been written; `meta_length` is the `"length"` entry of
`document_metadata`. -/
structure DocumentRow where
  collection_id : String
  source : String
  chunk_index : Nat
  content : String
  meta_length : Nat
  content_vector : Option (List Int) := none
  has_tsv : Bool := false
deriving DecidableEq, Repr

/-- A row of the `commit_tracker` table (unique on `project_id`); the
timestamp is abstracted as a `Nat`. -/
structure CommitTracker where
  project_id : String
  last_commit_id : String
  last_commit_time : Nat
deriving DecidableEq, Repr

/-- The database state: row lists in insertion order. -/
structure DB where
  checkpoints : List Checkpoint := []
  documents : List DocumentRow := []
  trackers : List CommitTracker := []
deriving DecidableEq, Repr

/-! ## Generic CRUD capability (db/__init__.py)

`get_resource` runs `session.scalars(stmt).first()`: the first row matching
the `where` filters. `update_resource` selects the first matching row and
updates only it; `delete_resource` selects the first matching row and deletes
only it. `create_resource` inserts one new row. `list_resource` returns all
matching rows. -/

/-- `update_resource`: update the first row satisfying `p` (no-op when no row
matches). -/
def updateFirst {α : Type} (p : α → Bool) (f : α → α) : List α → List α
  | [] => []
  | x :: xs => if p x then f x :: xs else x :: updateFirst p f xs

/-- `delete_resource`: remove the first row satisfying `p` (no-op when no row
matches). -/
def deleteFirst {α : Type} (p : α → Bool) : List α → List α
  | [] => []
  | x :: xs => if p x then xs else x :: deleteFirst p xs

/-! ## Remote repository data (inputs to gitlab_utils.py)

The remote GitLab instance is embedded as explicit data: the repository tree
and the commit lists (newest first) the API would serve, each commit carrying
the diffs `get_commit_diff` would return for it. -/

/-- An entry of the recursive repository tree listing. -/
structure TreeEntry where
  path : String
  type : String
deriving DecidableEq, Repr

/-- One entry of a commit's diff: `new_path`, `old_path`, `deleted_file`. -/
structure Diff where
  new_path : Option String := none
  old_path : Option String := none
  deleted_file : Bool := false
deriving DecidableEq, Repr

/-- A commit as served by the commits API, together with the diffs that
`get_commit_diff` returns for its id. -/
structure Commit where
  id : String
  diffs : List Diff := []
deriving DecidableEq, Repr

/-- One entry of the tracked-repository configuration file. -/
structure RepoConfig where
  path : String := ""
  api_path : String := ""
  subdir : String := ""
  extensions : List String := []
  collection_id : String := ""
deriving Repr

/-- `get_commits` issues a single GET with `per_page=100` and no page
iteration: of the full newest-first commit list the server holds for the
query, only the first page of 100 is returned. -/
def get_commits (serverCommits : List Commit) : List Commit :=
  serverCommits.take 100

/-- Python `str.startswith`, over the character lists (kernel-evaluable). -/
def strStartsWith (s pre : String) : Bool :=
  pre.data.isPrefixOf s.data

/-- Python `str.endswith`, over the character lists (kernel-evaluable). -/
def strEndsWith (s suf : String) : Bool :=
  suf.data.isSuffixOf s.data

/-- `get_tree_entries`: the API serves the entries under `path`
(`recursive=True`; modelled as the path filter below) and the client keeps
blob entries matching the extension allow-list
(`not extensions or any(e["path"].endswith(ext) for ext in extensions)`). -/
def get_tree_entries (tree : List TreeEntry) (path : String)
    (extensions : List String) : List TreeEntry :=
  (tree.filter (fun e => strStartsWith e.path path)).filter
    (fun e => e.type == "blob" &&
      (extensions.isEmpty || extensions.any (fun ext => strEndsWith e.path ext)))

/-! ## Change-set resolution (files_fetcher.py, `determine_file_changes`) -/

/-- `diff.get("new_path") or diff.get("old_path")`: Python `or` falls through
on `None` and on the empty string. -/
def diffPath (d : Diff) : Option String :=
  match d.new_path with
  | some s => if s = "" then d.old_path else some s
  | none => d.old_path

/-- The body of the diff loop: skip a diff when its path is falsy, outside the
tracked subdirectory, or not matching any extension; otherwise add the path to
the deleted set when `deleted_file` is set and to the changed set otherwise. -/
def classifyDiff (cfg : RepoConfig) (acc : Finset String × Finset String)
    (d : Diff) : Finset String × Finset String :=
  match diffPath d with
  | none => acc
  | some p =>
    if p = "" then acc
    else if ¬ strStartsWith p cfg.subdir then acc
    else if ¬ cfg.extensions.any (fun ext => strEndsWith p ext) then acc
    else if d.deleted_file then (acc.1, insert p acc.2)
    else (insert p acc.1, acc.2)

/-- The commit walk of `determine_file_changes`: iterate the fetched commits
newest-first, stopping (`break`) at the first commit whose id equals the
cursor commit, classifying every diff of the commits before the boundary. -/
def walkCommits (cfg : RepoConfig) (last : String) (commits : List Commit) :
    Finset String × Finset String :=
  (commits.takeWhile (fun c => c.id != last)).foldl
    (fun acc c => c.diffs.foldl (classifyDiff cfg) acc) (∅, ∅)

/-- `determine_file_changes`. Inputs: the repo configuration, the remote tree,
the server's newest-first commit list for `api_path` restricted by
`since=last_time` (`commitsSince`), the unrestricted one (`allCommits`), the
checkpoint table, and the cursor commit id (`None` when no tracker row
exists). Returns `(to_process, to_delete, latest_commit_id)`, or `none` when
the final `get_commits(...)[0]` indexing fails because the remote has no
commits. Python truthiness: `if not last_commit` treats the empty string like
`None`. -/
def determine_file_changes (cfg : RepoConfig) (tree : List TreeEntry)
    (commitsSince allCommits : List Commit) (checkpoints : List Checkpoint)
    (last_commit : Option String) :
    Option (Finset String × Finset String × String) :=
  let current_files : Finset String :=
    ((get_tree_entries tree cfg.subdir cfg.extensions).map (·.path)).toFinset
  let seen_files : Finset String :=
    ((checkpoints.filter (fun cp => cp.state ≠ CheckpointState.DELETED)).map
      (·.file_path)).toFinset
  let walked : Finset String × Finset String :=
    match last_commit with
    | none => (current_files, ∅)
    | some last =>
      if last = "" then (current_files, ∅)
      else walkCommits cfg last (get_commits commitsSince)
  match (get_commits allCommits).head? with
  | none => none
  | some c => some ((current_files \ seen_files) ∪ walked.1, walked.2, c.id)

/-! ## File processing (files_processor.py)

`clean_text` collapses every run of `[ \t\r\n]+` to a single space and strips
the ends. The `RecursiveCharacterTextSplitter` is external library code (the
spec treats the splitting library as a collaborator), so `chunk_content` is
parametrised by the split function `split : String → List String`. -/

/-- Characters of the `whitespace_pattern` character class `[ \t\r\n]`. -/
def isWsChar (c : Char) : Bool :=
  c = ' ' || c = '\t' || c = '\r' || c = '\n'

/-- Collapse every maximal run of `whitespace_pattern` characters to one
space (`whitespace_pattern.sub(" ", text)`). -/
def collapseWs : List Char → List Char
  | [] => []
  | [c] => if isWsChar c then [' '] else [c]
  | c :: d :: rest =>
    if isWsChar c && isWsChar d then collapseWs (d :: rest)
    else (if isWsChar c then ' ' else c) :: collapseWs (d :: rest)

/-- `str.strip()` on the whitespace characters relevant after collapsing. -/
def stripEnds (l : List Char) : List Char :=
  ((l.dropWhile isWsChar).reverse.dropWhile isWsChar).reverse

/-- `clean_text`: collapse whitespace runs, then strip the ends. -/
def clean_text (s : String) : String :=
  ⟨stripEnds (collapseWs s.data)⟩

/-- `chunk_content`: clean the content, split it, and build one document row
per chunk with zero-based consecutive `chunk_index` (`enumerate`) and
`document_metadata = {"length": len(chunk)}`. -/
def chunk_content (split : String → List String) (content source
    collection_id : String) : List DocumentRow :=
  ((split (clean_text content)).enum).map (fun ic =>
    { collection_id := collection_id
      source := source
      chunk_index := ic.1
      content := ic.2
      meta_length := ic.2.length })

/-- The `where` filter `(Checkpoint.commit_id == commit_sha,
Checkpoint.file_path == file_path)` used by `process_file`. -/
def cpKey (commit_sha file_path : String) (cp : Checkpoint) : Bool :=
  cp.commit_id == commit_sha && cp.file_path == file_path

/-- The `except` branch of `process_file`: look the checkpoint up again and
record `PROCESS_ERROR` with the error text (updating the first matching row,
or creating one). -/
def process_file_error (e : String) (file_path commit_sha : String)
    (db : DB) : DB :=
  match db.checkpoints.find? (cpKey commit_sha file_path) with
  | some _ =>
    let cps := updateFirst (cpKey commit_sha file_path)
      (fun cp => { cp with state := .PROCESS_ERROR, error_message := some e })
      db.checkpoints
    { db with checkpoints := cps }
  | none =>
    let row : Checkpoint :=
      { commit_id := commit_sha, file_path := file_path,
        state := .PROCESS_ERROR, error_message := some e }
    { db with checkpoints := db.checkpoints ++ [row] }

/-- The ingestion body of `process_file` once content has been fetched:
chunk, `document_crud.delete_resource(where=[Document.source == file_path])`
(which deletes only the first matching row), insert the chunk rows, send one
`embed_chunk` task per chunk, and set the checkpoint to `PROCESSED` (update
of the first `(commit_id, file_path)` match when `existing_checkpoint` was
found at entry, create otherwise). Returns the new state and the embed tasks
sent (`(source, chunk_index, collection_id)`). -/
def process_file_ingest (split : String → List String) (content file_path
    commit_sha collection_id : String) (hadCheckpoint : Bool) (db : DB) :
    DB × List (String × Nat × String) :=
  let chunks := chunk_content split content file_path collection_id
  let docs := deleteFirst (fun d => d.source == file_path) db.documents ++ chunks
  let tasks := chunks.map (fun c => (c.source, c.chunk_index, c.collection_id))
  let cps :=
    if hadCheckpoint then
      updateFirst (cpKey commit_sha file_path)
        (fun cp => { cp with commit_id := commit_sha, file_path := file_path,
                             state := .PROCESSED })
        db.checkpoints
    else
      db.checkpoints ++
        [{ commit_id := commit_sha, file_path := file_path,
           state := .PROCESSED }]
  ({ db with checkpoints := cps, documents := docs }, tasks)

/-- `process_file` task. The remote fetch `get_file_content(project_id,
file_path, commit_sha)` is embedded as its outcome `fetched` (`.error` when
the fetch raises). If a checkpoint for `(commit_sha, file_path)` exists in
state `PROCESSED` or `EMBEDDED` the task returns immediately; otherwise it
ingests the fetched content, or records `PROCESS_ERROR` when the fetch
raised. -/
def process_file (split : String → List String)
    (fetched : Except String String) (file_path commit_sha
    collection_id : String) (db : DB) : DB × List (String × Nat × String) :=
  match db.checkpoints.find? (cpKey commit_sha file_path) with
  | some cp =>
    if cp.state = .PROCESSED ∨ cp.state = .EMBEDDED then (db, [])
    else
      match fetched with
      | .error e => (process_file_error e file_path commit_sha db, [])
      | .ok content =>
        process_file_ingest split content file_path commit_sha collection_id
          true db
  | none =>
    match fetched with
    | .error e => (process_file_error e file_path commit_sha db, [])
    | .ok content =>
      process_file_ingest split content file_path commit_sha collection_id
        false db

/-! ## Embedding worker (embed.py)

`embed_chunk` is bound with `max_retries=3, default_retry_delay=60`. One run:
look the chunk up (`first` match on `(source, chunk_index, collection_id)`);
if absent, log and return. Otherwise embed the content; persist the vector
and the lexical index value onto the chunk row; then set the FIRST checkpoint
with `file_path == source ∧ state != "DELETED"` to `EMBEDDED`. On any
exception the `except` branch sets the FIRST checkpoint with
`file_path == source` to `ERROR` with the error message, then calls
`self.retry(exc=e)`.

The embedding capability is embedded as its outcome per run,
`results : Nat → Except String (List Int)`. -/

/-- The document filter of `embed_chunk`. -/
def chunkKey (source : String) (chunk_index : Nat) (collection_id : String)
    (d : DocumentRow) : Bool :=
  d.source == source && d.chunk_index == chunk_index &&
    d.collection_id == collection_id

/-- Result of one run of the `embed_chunk` task body. -/
inductive EmbedRunResult where
  | done
  | notFound
  | failedRetry (msg : String)
deriving DecidableEq, Repr

/-- One run of the `embed_chunk` task body. -/
def embed_chunk_once (embedResult : Except String (List Int))
    (source : String) (chunk_index : Nat) (collection_id : String)
    (db : DB) : DB × EmbedRunResult :=
  match db.documents.find? (chunkKey source chunk_index collection_id) with
  | none => (db, .notFound)
  | some _ =>
    match embedResult with
    | .ok vec =>
      let docs := updateFirst (chunkKey source chunk_index collection_id)
        (fun d => { d with content_vector := some vec, has_tsv := true })
        db.documents
      let cps := updateFirst
        (fun cp => cp.file_path == source &&
          cp.state != CheckpointState.DELETED)
        (fun cp => { cp with state := .EMBEDDED }) db.checkpoints
      ({ db with documents := docs, checkpoints := cps }, .done)
    | .error e =>
      let cps := updateFirst (fun cp => cp.file_path == source)
        (fun cp => { cp with state := .ERROR, error_message := some e })
        db.checkpoints
      ({ db with checkpoints := cps }, .failedRetry e)

/-- The job runner around `embed_chunk`: run the task; on `self.retry` re-run
after `default_retry_delay = 60` seconds while retries remain
(`max_retries = 3`); when retries are exhausted the task fails for good with
the checkpoint as the failing run left it. Returns the final state, the
number of runs performed, and the list of retry delays slept. -/
def embedRetryLoop (results : Nat → Except String (List Int))
    (source : String) (chunk_index : Nat) (collection_id : String) :
    Nat → Nat → DB → DB × Nat × List Nat
  | run, remaining, db =>
    let r := embed_chunk_once (results run) source chunk_index collection_id db
    match r.2, remaining with
    | .failedRetry _, rem + 1 =>
      let rest :=
        embedRetryLoop results source chunk_index collection_id (run + 1) rem
          r.1
      (rest.1, rest.2.1, 60 :: rest.2.2)
    | _, _ => (r.1, run + 1, [])

/-- The `embed_chunk` task as executed by the job runner: at most
`1 + max_retries = 4` runs. -/
def embed_chunk_task (results : Nat → Except String (List Int))
    (source : String) (chunk_index : Nat) (collection_id : String)
    (db : DB) : DB × Nat × List Nat :=
  embedRetryLoop results source chunk_index collection_id 0 3 db

/-- The checkpoint rewrite the `except` branch of `embed_chunk` performs:
first checkpoint with the source's file path gets state `ERROR` and the
message. -/
def embedErrSet (s e : String) (l : List Checkpoint) : List Checkpoint :=
  updateFirst (fun x => x.file_path == s)
    (fun x => { x with state := .ERROR, error_message := some e }) l

/-! ## Retrieval read path (utils/hybrid_search.py)

Python string primitives used by `build_source_url`, embedded over character
lists. `str.replace(old, new)` replaces every non-overlapping occurrence left
to right; every pattern the source passes is non-empty, and the fuel
`s.length` suffices because each step consumes at least one character. -/

/-- One step of Python `str.replace`, with fuel. -/
def replaceFuel (pat rep : List Char) : Nat → List Char → List Char
  | 0, s => s
  | _ + 1, [] => []
  | fuel + 1, c :: rest =>
    if pat ≠ [] && pat.isPrefixOf (c :: rest) then
      rep ++ replaceFuel pat rep fuel ((c :: rest).drop pat.length)
    else c :: replaceFuel pat rep fuel rest

/-- Python `s.replace(pat, rep)` (for non-empty `pat`). -/
def pyReplace (s pat rep : String) : String :=
  ⟨replaceFuel pat.data rep.data s.data.length s.data⟩

/-- Python `s.removeprefix(pat)`. -/
def pyRemoveLeading (s pat : String) : String :=
  if pat.data.isPrefixOf s.data then ⟨s.data.drop pat.data.length⟩ else s

/-- Python `s.removesuffix(pat)`. -/
def pyRemoveTrailing (s pat : String) : String :=
  if pat.data.reverse.isPrefixOf s.data.reverse then
    ⟨(s.data.reverse.drop pat.data.length).reverse⟩
  else s

/-- `build_source_url`: for the `"handbook"` collection, strip the
`content/handbook/` root and a `.md` suffix, drop every `.md`, `_index` and
`README` occurrence, and prepend the handbook base URL; for `"direction"`,
the same transform against `source/direction/` and the direction base URL;
any other collection returns the file path unchanged. -/
def build_source_url (collection_id file_path : String) : String :=
  if collection_id = "handbook" then
    let relative_path :=
      pyRemoveTrailing (pyRemoveLeading file_path "content/handbook/") ".md"
    let url_path :=
      pyReplace (pyReplace (pyReplace relative_path ".md" "") "_index" "")
        "README" ""
    "https://handbook.gitlab.com/" ++ url_path
  else if collection_id = "direction" then
    let relative_path :=
      pyRemoveTrailing (pyRemoveLeading file_path "source/direction/") ".md"
    let url_path :=
      pyReplace (pyReplace (pyReplace relative_path ".md" "") "_index" "")
        "README" ""
    "https://about.gitlab.com/direction/" ++ url_path
  else file_path

/-- A row of the ranked result list `hybrid_search` returns (the fields
`generate_rag_context` reads). -/
structure SearchRow where
  content : String
  collection_id : String
  source : String
deriving DecidableEq, Repr

/-- `generate_rag_context`, given the ranked rows `hybrid_search` returned:
join the chunk contents with newlines, and aggregate the source URLs into a
Python `set` — an unordered collection, embedded as a `Finset`. -/
def generate_rag_context (rows : List SearchRow) : String × Finset String :=
  (String.intercalate "\n" (rows.map (·.content)),
    (rows.map (fun r => build_source_url r.collection_id r.source)).toFinset)

/-! ## Sync orchestrator (files_fetcher.py, `fetch_files`)

`fetch_files` iterates the tracked repositories; each repository's cycle runs
inside `try: ... except Exception: log`. Within a cycle: resolve the project
id, read the commit tracker, resolve the change set, dispatch the to-process
and to-delete work, and only then upsert the commit tracker.

Python has no transaction around the cycle: an exception thrown mid-cycle
keeps the mutations already made. The embedding threads an explicit state and
numbers the cycle's primitive write operations; a failure injection point
`failAt` makes the operation with that index raise, modelling an exception
from the DB, the broker, or the remote during dispatch. Reads do not consume
an operation index. -/

/-- The per-repository remote behaviour of one cycle: the outcome of
`get_project_id` (`.error` when the remote is permanently unreachable) and
the data the remote serves. -/
structure RepoRemote where
  project_id_result : Except String Nat
  tree : List TreeEntry := []
  commitsSince : List Commit := []
  allCommits : List Commit := []

/-- Orchestrator state: the database, the process-file tasks dispatched so
far (`(file_path, commit_sha, collection_id)`), and the number of primitive
write operations performed. -/
structure SyncSt where
  db : DB := {}
  dispatched : List (String × String × String) := []
  ops : Nat := 0
deriving DecidableEq, Repr

/-- Run one primitive write operation, raising at the injected failure
point. The error carries the state at the failure, with every earlier
mutation kept. -/
def tryOp (failAt : Option Nat) (f : SyncSt → SyncSt) (s : SyncSt) :
    Except SyncSt SyncSt :=
  if failAt = some s.ops then .error s
  else .ok { f s with ops := s.ops + 1 }

/-- To-process dispatch, first write: upsert the checkpoint of `fp` (filter
on `file_path` only) to `PROCESS_PENDING` with the latest commit id. -/
def cpUpsertPending (latest fp : String) (s : SyncSt) : SyncSt :=
  let cps :=
    match s.db.checkpoints.find? (fun cp => cp.file_path == fp) with
    | some _ =>
      updateFirst (fun cp => cp.file_path == fp)
        (fun cp => { cp with state := .PROCESS_PENDING, commit_id := latest })
        s.db.checkpoints
    | none =>
      s.db.checkpoints ++
        [{ commit_id := latest, file_path := fp, state := .PROCESS_PENDING }]
  { s with db := { s.db with checkpoints := cps } }

/-- To-process dispatch, second write: `process_file.delay(...)`. -/
def sendProcessTask (cfg : RepoConfig) (latest fp : String) (s : SyncSt) :
    SyncSt :=
  { s with dispatched := s.dispatched ++ [(fp, latest, cfg.collection_id)] }

/-- To-delete dispatch, first write: upsert the checkpoint of `fp` to
`DELETED`. -/
def cpUpsertDeleted (latest fp : String) (s : SyncSt) : SyncSt :=
  let cps :=
    match s.db.checkpoints.find? (fun cp => cp.file_path == fp) with
    | some _ =>
      updateFirst (fun cp => cp.file_path == fp)
        (fun cp => { cp with state := .DELETED })
        s.db.checkpoints
    | none =>
      s.db.checkpoints ++
        [{ commit_id := latest, file_path := fp, state := .DELETED }]
  { s with db := { s.db with checkpoints := cps } }

/-- To-delete dispatch, second write: delete the document row for the source
in this collection (first match). -/
def docDeleteOp (cfg : RepoConfig) (fp : String) (s : SyncSt) : SyncSt :=
  let docs := deleteFirst
    (fun d => d.source == fp && d.collection_id == cfg.collection_id)
    s.db.documents
  { s with db := { s.db with documents := docs } }

/-- The final write of a cycle: upsert the commit tracker row with
`latest_commit` and the current time (`existed` is whether the tracker row
was found at cycle start). -/
def trackerUpsert (pidStr latest : String) (now : Nat) (existed : Bool)
    (s : SyncSt) : SyncSt :=
  let trs :=
    if existed then
      updateFirst (fun t => t.project_id == pidStr)
        (fun t => { t with project_id := pidStr, last_commit_id := latest,
                           last_commit_time := now })
        s.db.trackers
    else
      s.db.trackers ++
        [{ project_id := pidStr, last_commit_id := latest,
           last_commit_time := now }]
  { s with db := { s.db with trackers := trs } }

/-- Two consecutive primitive writes, stopping at the first failure. -/
def step2 (failAt : Option Nat) (op1 op2 : SyncSt → SyncSt) (s : SyncSt) :
    Except SyncSt SyncSt :=
  match tryOp failAt op1 s with
  | .error t => .error t
  | .ok s1 => tryOp failAt op2 s1

/-- A dispatch loop over file paths, two writes per file, stopping at the
first failure with the partial mutations kept. -/
def runLoop (failAt : Option Nat) (op1 op2 : String → SyncSt → SyncSt) :
    List String → SyncSt → Except SyncSt SyncSt
  | [], s => .ok s
  | fp :: rest, s =>
    match step2 failAt (op1 fp) (op2 fp) s with
    | .error t => .error t
    | .ok s1 => runLoop failAt op1 op2 rest s1

/-- The dispatch phase of one cycle: the sorted to-process loop (checkpoint
upsert, then task send, per file), the sorted to-delete loop (checkpoint
upsert, then document delete, per file), then — last of all — the tracker
upsert. -/
def dispatchPhase (cfg : RepoConfig) (failAt : Option Nat)
    (pidStr latest : String) (now : Nat) (trackerExisted : Bool)
    (procList delList : List String) (s : SyncSt) : Except SyncSt SyncSt :=
  match runLoop failAt (cpUpsertPending latest) (sendProcessTask cfg latest)
      procList s with
  | .error t => .error t
  | .ok s1 =>
    match runLoop failAt (cpUpsertDeleted latest) (docDeleteOp cfg)
        delList s1 with
    | .error t => .error t
    | .ok s2 => tryOp failAt (trackerUpsert pidStr latest now trackerExisted) s2

/-- One repository's cycle inside `fetch_files`'s `try`. Returns the state
after the cycle and whether the cycle aborted with an exception (which
`fetch_files` catches and logs). -/
def repoCycle (cfg : RepoConfig) (remote : RepoRemote) (failAt : Option Nat)
    (now : Nat) (s : SyncSt) : SyncSt × Bool :=
  match remote.project_id_result with
  | .error _ => (s, true)
  | .ok pid =>
    let pidStr := toString pid
    let tracker := s.db.trackers.find? (fun t => t.project_id == pidStr)
    let last_commit := tracker.map (·.last_commit_id)
    match determine_file_changes cfg remote.tree remote.commitsSince
        remote.allCommits s.db.checkpoints last_commit with
    | none => (s, true)
    | some changes =>
      let procList := changes.1.sort (· ≤ ·)
      let delList := changes.2.1.sort (· ≤ ·)
      match dispatchPhase cfg failAt pidStr changes.2.2 now tracker.isSome
          procList delList s with
      | .ok s' => (s', false)
      | .error s' => (s', true)

/-- One tracked repository as `fetch_files` sees it: its configuration, its
remote behaviour for this cycle, and this cycle's injected failure point (if
any). -/
structure RepoTask where
  cfg : RepoConfig
  remote : RepoRemote
  failAt : Option Nat := none

/-- `fetch_files`: iterate the tracked repositories, running each cycle under
`try/except` — an aborted cycle only logs, and the loop proceeds with the
next repository. -/
def fetch_files (repos : List RepoTask) (now : Nat) (s : SyncSt) : SyncSt :=
  repos.foldl (fun s r => (repoCycle r.cfg r.remote r.failAt now s).1) s

/-! ## Spec-side definitions (for refinement claims)

These follow the words of the spec/claims, to be compared with the
definitions embedded from the source. -/

/-- Split a character list at every `/` (segments keep no separator; `n`
separators yield `n + 1` segments). -/
def splitSegs : List Char → List (List Char)
  | [] => [[]]
  | c :: rest =>
    match splitSegs rest with
    | [] => [[]]
    | seg :: segs =>
      if c = '/' then [] :: seg :: segs else (c :: seg) :: segs

/-- Drop a path segment when it is exactly `_index` or `README` (the
separators around it are kept, as the spec's own example
`security/_index.md ↦ security/` shows). -/
def dropSeg (seg : List Char) : List Char :=
  if seg = "_index".data ∨ seg = "README".data then [] else seg

/-- Rejoin segments with `/`. -/
def joinSegs : List (List Char) → List Char
  | [] => []
  | [seg] => seg
  | seg :: segs => seg ++ '/' :: joinSegs segs

/-- The source-URL transform as the spec words it: strip the content-root
`root`, strip the `.md` suffix, drop the `_index` and `README` SEGMENTS
(whole path segments, not substrings), and prepend the collection's public
base URL. -/
def specCollectionUrl (base root file_path : String) : String :=
  base ++
    ⟨joinSegs ((splitSegs
      (pyRemoveTrailing (pyRemoveLeading file_path root) ".md").data).map
        dropSeg)⟩

/-- The source-URL transform as the code actually behaves (the amended
claim): strip the content-root `root` and a trailing `.md`, then remove
every remaining occurrence of `.md`, then of `_index`, then of `README`, as
substrings anywhere in the path, and prepend the collection's public base
URL. -/
def specOccurrenceUrl (base root file_path : String) : String :=
  base ++
    pyReplace
      (pyReplace
        (pyReplace (pyRemoveTrailing (pyRemoveLeading file_path root) ".md")
          ".md" "")
        "_index" "")
      "README" ""

/-- The aggregated source list as the spec words it: source URLs of the
ranked rows, deduplicated while preserving first-seen order. -/
def firstSeenUrls (rows : List SearchRow) : List String :=
  (rows.map (fun r => build_source_url r.collection_id r.source)).foldl
    (fun acc u => if u ∈ acc then acc else acc ++ [u]) []

/-! ## Lemmas about the `safe_get` retry loop -/

/-- Shifting the doubling schedule by one attempt. -/
lemma range_pow_shift (a n : Nat) :
    (List.range (n + 1)).map (fun j => 2 ^ (a + j)) =
      2 ^ a :: (List.range n).map (fun j => 2 ^ (a + 1 + j)) := by
  rw [List.range_succ_eq_map, List.map_cons, List.map_map]
  refine congrArg₂ List.cons (by simp) ?_
  refine List.map_congr_left (fun j _ => ?_)
  simp only [Function.comp_apply, Nat.succ_eq_add_one]
  exact congrArg (2 ^ ·) (by omega)

/-- When every status in the window is retryable, the loop exhausts the
window, sleeping `2 ^ attempt` on every attempt. -/
lemma safeGetLoop_exhausts (responses : Nat → Nat) :
    ∀ remaining attempt,
      (∀ i, i < remaining → retryable (responses (attempt + i))) →
      safeGetLoop responses attempt remaining =
        (.exhausted, (List.range remaining).map (fun j => 2 ^ (attempt + j))) := by
  intro remaining
  induction remaining with
  | zero => intro attempt _; simp [safeGetLoop]
  | succ n ih =>
    intro attempt h
    have h0 : retryable (responses attempt) := by
      have := h 0 (Nat.succ_pos n); simpa using this
    have hrec := ih (attempt + 1) (fun i hi => by
      have := h (i + 1) (Nat.succ_lt_succ hi)
      simpa [Nat.add_assoc, Nat.add_comm 1 i] using this)
    rw [range_pow_shift]
    simp [safeGetLoop, h0, hrec]

/-- When the first `k` statuses of the window are retryable and the `k`-th is
not, the loop stops at attempt `attempt + k` after sleeping
`2 ^ attempt, …, 2 ^ (attempt + k - 1)`, raising for an error status and
returning the response otherwise. -/
lemma safeGetLoop_stops (responses : Nat → Nat) :
    ∀ k remaining attempt, k < remaining →
      (∀ i, i < k → retryable (responses (attempt + i))) →
      ¬ retryable (responses (attempt + k)) →
      safeGetLoop responses attempt remaining =
        ((if raisesForStatus (responses (attempt + k)) then
            FetchOutcome.httpError (attempt + k) (responses (attempt + k))
          else FetchOutcome.success (attempt + k) (responses (attempt + k))),
         (List.range k).map (fun j => 2 ^ (attempt + j))) := by
  intro k
  induction k with
  | zero =>
    intro remaining attempt hk _ hstop
    obtain ⟨m, rfl⟩ := Nat.exists_eq_succ_of_ne_zero (Nat.pos_iff_ne_zero.mp hk)
    simp only [Nat.add_zero] at hstop
    by_cases hr : raisesForStatus (responses attempt) <;>
      simp [safeGetLoop, hstop, hr]
  | succ n ih =>
    intro remaining attempt hk hpre hstop
    obtain ⟨m, rfl⟩ := Nat.exists_eq_succ_of_ne_zero
      (Nat.pos_iff_ne_zero.mp (Nat.lt_of_le_of_lt (Nat.zero_le _) hk))
    have h0 : retryable (responses attempt) := by
      have := hpre 0 (Nat.succ_pos n); simpa using this
    have hrec := ih m (attempt + 1) (Nat.lt_of_succ_lt_succ hk)
      (fun i hi => by
        have := hpre (i + 1) (Nat.succ_lt_succ hi)
        simpa [Nat.add_assoc, Nat.add_comm 1 i] using this)
      (by
        have : attempt + 1 + n = attempt + (n + 1) := by omega
        rw [this]; exact hstop)
    have harith : attempt + 1 + n = attempt + (n + 1) := by omega
    rw [range_pow_shift]
    simp only [safeGetLoop, h0, if_pos, hrec, harith]

/-- The sleeps of any `safe_get` run form the initial segment
`2^0, 2^1, …` of the doubling schedule. -/
lemma safeGetLoop_waits (responses : Nat → Nat) :
    ∀ remaining attempt, ∃ m,
      (safeGetLoop responses attempt remaining).2 =
        (List.range m).map (fun j => 2 ^ (attempt + j)) := by
  intro remaining
  induction remaining with
  | zero => intro attempt; exact ⟨0, by simp [safeGetLoop]⟩
  | succ n ih =>
    intro attempt
    by_cases h0 : retryable (responses attempt)
    · obtain ⟨m, hm⟩ := ih (attempt + 1)
      refine ⟨m + 1, ?_⟩
      rw [range_pow_shift]
      simp [safeGetLoop, h0, hm]
    · refine ⟨0, ?_⟩
      by_cases hr : raisesForStatus (responses attempt) <;>
        simp [safeGetLoop, h0, hr]

/-- C2: `safe_get` retries statuses 429 and ≥ 500 with exponentially doubling
back-off (`2 ^ attempt`) up to the fixed ceiling of `MAX_RETRIES = 5`
attempts and raises the permanent fetch `Exception` on exhaustion; any other
error status (4xx other than 429) raises immediately, in particular on the
first attempt with no retry and no sleep; a success status returns the
response; and the sleeps of every run follow the doubling schedule
`[2^0, 2^1, …]`. -/
theorem c2_safe_get_retry_policy (responses : Nat → Nat) :
    ((∀ i, i < MAX_RETRIES → retryable (responses i)) →
      safe_get responses = (.exhausted, [1, 2, 4, 8, 16])) ∧
    (∀ k, k < MAX_RETRIES → (∀ i, i < k → retryable (responses i)) →
      ¬ retryable (responses k) → raisesForStatus (responses k) →
      safe_get responses =
        (.httpError k (responses k), (List.range k).map (fun j => 2 ^ j))) ∧
    (∀ k, k < MAX_RETRIES → (∀ i, i < k → retryable (responses i)) →
      ¬ retryable (responses k) → ¬ raisesForStatus (responses k) →
      safe_get responses =
        (.success k (responses k), (List.range k).map (fun j => 2 ^ j))) ∧
    (safe_get responses).2 =
      (List.range (safe_get responses).2.length).map (fun j => 2 ^ j) := by
  refine ⟨?_, ?_, ?_, ?_⟩
  · intro h
    have := safeGetLoop_exhausts responses MAX_RETRIES 0
      (fun i hi => by simpa using h i hi)
    simpa [safe_get, MAX_RETRIES] using this
  · intro k hk hpre hstop hr
    have h := safeGetLoop_stops responses k MAX_RETRIES 0 hk
      (fun i hi => by simpa using hpre i hi) (by simpa using hstop)
    rw [safe_get, h]
    simp [hr]
  · intro k hk hpre hstop hr
    have h := safeGetLoop_stops responses k MAX_RETRIES 0 hk
      (fun i hi => by simpa using hpre i hi) (by simpa using hstop)
    rw [safe_get, h]
    simp [hr]
  · obtain ⟨m, hm⟩ := safeGetLoop_waits responses MAX_RETRIES 0
    have h2 : (safe_get responses).2 = (List.range m).map (fun j => 2 ^ j) := by
      rw [safe_get, hm]; simp
    rw [h2]
    simp

/-- Witness for C2 at concrete remotes: a permanently failing server (503
throughout) exhausts all 5 attempts with sleeps 1, 2, 4, 8, 16 and raises the
permanent error; a 404 raises immediately on attempt 0 with no sleep; two
rate limits followed by a 200 return the response on attempt 2 after sleeps
1, 2. -/
theorem c2_safe_get_retry_policy_witness :
    safe_get (fun _ => 503) = (.exhausted, [1, 2, 4, 8, 16]) ∧
    safe_get (fun _ => 404) = (.httpError 0 404, []) ∧
    safe_get (fun i => if i < 2 then 429 else 200) = (.success 2 200, [1, 2]) := by
  refine ⟨?_, ?_, ?_⟩
  · exact (c2_safe_get_retry_policy (fun _ => 503)).1 (fun i _ => by decide)
  · have := (c2_safe_get_retry_policy (fun _ => 404)).2.1 0 (by decide)
      (fun i hi => absurd hi (Nat.not_lt_zero i)) (by decide) (by decide)
    simpa using this
  · have := (c2_safe_get_retry_policy (fun i => if i < 2 then 429 else 200)).2.2.1
      2 (by decide) (fun i hi => by interval_cases i <;> decide)
      (by decide) (by decide)
    simpa using this

/-! ## Change-set resolution claims -/

/-- C1: with no prior commit cursor, `determine_file_changes` returns as
to-process exactly the files currently in the tree (and the second conjunct
characterises that set: the blob entries under the tracked subdirectory
matching the extension filter), and an empty to-delete set. The latest-commit
lookup `get_commits(...)[0]` requires the remote to have a commit at all. -/
theorem c1_full_resync (cfg : RepoConfig) (tree : List TreeEntry)
    (commitsSince allCommits : List Commit) (checkpoints : List Checkpoint)
    (latest : Commit) (h : (get_commits allCommits).head? = some latest) :
    determine_file_changes cfg tree commitsSince allCommits checkpoints none =
      some (((get_tree_entries tree cfg.subdir cfg.extensions).map
        (·.path)).toFinset, ∅, latest.id) ∧
    ∀ p, p ∈ ((get_tree_entries tree cfg.subdir cfg.extensions).map
        (·.path)).toFinset ↔
      ∃ e ∈ tree, e.path = p ∧ e.type = "blob" ∧
        strStartsWith p cfg.subdir = true ∧
        (cfg.extensions = [] ∨ ∃ ext ∈ cfg.extensions, strEndsWith p ext = true) := by
  constructor
  · have hsd : (((get_tree_entries tree cfg.subdir cfg.extensions).map
        (·.path)).toFinset \
          ((checkpoints.filter (fun cp =>
            cp.state ≠ CheckpointState.DELETED)).map (·.file_path)).toFinset) ∪
        ((get_tree_entries tree cfg.subdir cfg.extensions).map
          (·.path)).toFinset =
        ((get_tree_entries tree cfg.subdir cfg.extensions).map
          (·.path)).toFinset :=
      Finset.union_eq_right.mpr (Finset.sdiff_subset)
    simp only [determine_file_changes, h, hsd]
  · intro p
    simp only [get_tree_entries, List.mem_toFinset, List.mem_map,
      List.mem_filter, Bool.and_eq_true, Bool.or_eq_true, beq_iff_eq,
      List.any_eq_true, List.isEmpty_iff]
    constructor
    · rintro ⟨e, ⟨⟨hmem, hstart⟩, hblob, hext⟩, rfl⟩
      refine ⟨e, hmem, rfl, hblob, hstart, ?_⟩
      rcases hext with hnil | ⟨ext, hext, hend⟩
      · exact Or.inl hnil
      · exact Or.inr ⟨ext, hext, hend⟩
    · rintro ⟨e, hmem, rfl, hblob, hstart, hext⟩
      refine ⟨e, ⟨⟨hmem, hstart⟩, hblob, ?_⟩, rfl⟩
      rcases hext with hnil | ⟨ext, hext, hend⟩
      · exact Or.inl hnil
      · exact Or.inr ⟨ext, hext, hend⟩

/-- Witness for C1: a fresh repository (no cursor) with two Markdown blobs, a
directory entry, a non-Markdown blob, and a blob outside the subdirectory;
only the two Markdown blobs under `content/handbook` become to-process, the
to-delete set is empty, and the cursor candidate is the newest commit id. -/
theorem c1_full_resync_witness :
    determine_file_changes
      { subdir := "content/handbook", extensions := [".md"],
        collection_id := "handbook" }
      [{ path := "content/handbook/a.md", type := "blob" },
       { path := "content/handbook/sub/b.md", type := "blob" },
       { path := "content/handbook/sub", type := "tree" },
       { path := "content/handbook/logo.png", type := "blob" },
       { path := "other/c.md", type := "blob" }]
      [] [{ id := "c9" }]
      [{ commit_id := "c0", file_path := "content/handbook/a.md",
         state := .PROCESSED }]
      none =
    some ({"content/handbook/a.md", "content/handbook/sub/b.md"}, ∅, "c9") := by
  have h := (c1_full_resync
    { subdir := "content/handbook", extensions := [".md"],
      collection_id := "handbook" }
    [{ path := "content/handbook/a.md", type := "blob" },
     { path := "content/handbook/sub/b.md", type := "blob" },
     { path := "content/handbook/sub", type := "tree" },
     { path := "content/handbook/logo.png", type := "blob" },
     { path := "other/c.md", type := "blob" }]
    [] [{ id := "c9" }]
    [{ commit_id := "c0", file_path := "content/handbook/a.md",
       state := .PROCESSED }]
    { id := "c9" } rfl).1
  rw [h]
  decide

/-- C10: `determine_file_changes` inspects at most the first 100 commits of
the since-window — its result is unchanged when the remote's commit lists are
truncated to their first 100 entries (so diffs of older commits never
influence the change sets) — and when the cursor commit id does not occur
among the first 100 commits, the walk never meets its stop boundary and
classifies the diffs of the whole 100-commit page. -/
theorem c10_commit_page_window (cfg : RepoConfig) (tree : List TreeEntry)
    (commitsSince allCommits : List Commit) (checkpoints : List Checkpoint)
    (last_commit : Option String) :
    determine_file_changes cfg tree commitsSince allCommits checkpoints
        last_commit =
      determine_file_changes cfg tree (commitsSince.take 100)
        (allCommits.take 100) checkpoints last_commit ∧
    (∀ last, last_commit = some last →
      last ∉ (commitsSince.take 100).map (·.id) →
      (get_commits commitsSince).takeWhile (fun c => c.id != last) =
        commitsSince.take 100) := by
  constructor
  · simp [determine_file_changes, get_commits, List.take_take]
  · intro last _ hnot
    rw [get_commits]
    refine List.takeWhile_eq_self_iff.mpr (fun c hc => ?_)
    have : c.id ≠ last := by
      intro heq
      exact hnot (List.mem_map.mpr ⟨c, hc, heq⟩)
    simpa using this

/-- Witness for C10: a since-window of 101 commits whose boundary commit is
not among the first 100 — the walk consumes the whole 100-commit page without
stopping. -/
theorem c10_commit_page_window_witness :
    (get_commits (List.replicate 101 ({ id := "newer" } : Commit))).takeWhile
        (fun c => c.id != "cursor") =
      (List.replicate 101 ({ id := "newer" } : Commit)).take 100 := by
  exact (c10_commit_page_window { subdir := "d" } []
    (List.replicate 101 ({ id := "newer" } : Commit)) [] [] (some "cursor")).2
    "cursor" rfl (by decide)

/-! ## File-processing claims -/

/-- C4: when a checkpoint for `(commit_sha, file_path)` exists in state
`PROCESSED` or `EMBEDDED`, `process_file` is a no-op: the database is
unchanged, no embed task is sent, and (the statement being quantified over
every possible fetch outcome) the result never depends on the remote
content — nothing is fetched. -/
theorem c4_idempotent_short_circuit (split : String → List String)
    (fetched : Except String String)
    (file_path commit_sha collection_id : String) (db : DB) (cp : Checkpoint)
    (hfind : db.checkpoints.find? (cpKey commit_sha file_path) = some cp)
    (hstate : cp.state = .PROCESSED ∨ cp.state = .EMBEDDED) :
    process_file split fetched file_path commit_sha collection_id db =
      (db, []) := by
  simp only [process_file, hfind]
  rw [if_pos hstate]

/-- Witness for C4: a file already `PROCESSED` for commit `c1` is skipped —
the state (one checkpoint, one stored chunk) is returned untouched and no
embed task is sent, although the fetch would have returned fresh content. -/
theorem c4_idempotent_short_circuit_witness :
    process_file (fun s => [s]) (.ok "fresh content") "a.md" "c1" "handbook"
      { checkpoints :=
          [{ commit_id := "c1", file_path := "a.md", state := .PROCESSED }],
        documents :=
          [{ collection_id := "handbook", source := "a.md", chunk_index := 0,
             content := "old", meta_length := 3 }] } =
      ({ checkpoints :=
           [{ commit_id := "c1", file_path := "a.md", state := .PROCESSED }],
         documents :=
           [{ collection_id := "handbook", source := "a.md", chunk_index := 0,
              content := "old", meta_length := 3 }] }, []) := by
  exact c4_idempotent_short_circuit (fun s => [s]) (.ok "fresh content")
    "a.md" "c1" "handbook" _
    { commit_id := "c1", file_path := "a.md", state := .PROCESSED }
    (by decide) (Or.inl rfl)

/-- C3 (code-bug evidence): `process_file` asks the generic
`delete_resource` to remove the chunks of the source, but `delete_resource`
deletes only the FIRST matching row. Reprocessing a source that previously
stored two chunks (indices 0 and 1) with fresh content that yields one chunk
leaves the stale chunk of index 1 in the store, so the stored chunk set for
the source is NOT the freshly computed chunk set — and the leftover row of
index 1 would collide with any two-chunk reprocessing under the
`(source, chunk_index)` unique constraint the schema declares. -/
theorem c3_delete_only_first_chunk :
    (process_file (fun s => [s]) (.ok "new content") "a.md" "c2" "handbook"
      { checkpoints :=
          [{ commit_id := "c1", file_path := "a.md", state := .PROCESSED }],
        documents :=
          [{ collection_id := "handbook", source := "a.md", chunk_index := 0,
             content := "old0", meta_length := 4 },
           { collection_id := "handbook", source := "a.md", chunk_index := 1,
             content := "old1", meta_length := 4 }] }).1.documents =
      [{ collection_id := "handbook", source := "a.md", chunk_index := 1,
         content := "old1", meta_length := 4 },
       { collection_id := "handbook", source := "a.md", chunk_index := 0,
         content := "new content", meta_length := 11 }] ∧
    (process_file (fun s => [s]) (.ok "new content") "a.md" "c2" "handbook"
      { checkpoints :=
          [{ commit_id := "c1", file_path := "a.md", state := .PROCESSED }],
        documents :=
          [{ collection_id := "handbook", source := "a.md", chunk_index := 0,
             content := "old0", meta_length := 4 },
           { collection_id := "handbook", source := "a.md", chunk_index := 1,
             content := "old1", meta_length := 4 }] }).1.documents.filter
        (fun d => d.source == "a.md") ≠
      chunk_content (fun s => [s]) "new content" "a.md" "handbook" := by
  constructor
  · decide
  · decide

/-! ## Lemmas about first-match updates -/

/-- When the filter is preserved by the update, the first match of the
updated list is the updated first match of the original. -/
lemma updateFirst_find?_pres {α : Type} (p : α → Bool) (f : α → α)
    (hp : ∀ x, p x = true → p (f x) = true) :
    ∀ (l : List α) (x : α), l.find? p = some x →
      (updateFirst p f l).find? p = some (f x) := by
  intro l
  induction l with
  | nil => intro x h; simp [List.find?] at h
  | cons a as ih =>
    intro x h
    by_cases hpa : p a = true
    · rw [List.find?_cons_of_pos _ hpa] at h
      obtain rfl : a = x := by injection h
      simp only [updateFirst, hpa, if_pos]
      rw [List.find?_cons_of_pos _ (hp a hpa)]
    · rw [List.find?_cons_of_neg _ (by simpa using hpa)] at h
      have : updateFirst p f (a :: as) = a :: updateFirst p f as := by
        simp [updateFirst, hpa]
      rw [this, List.find?_cons_of_neg _ (by simpa using hpa)]
      exact ih x h

/-- A row not matching the filter survives a first-match update untouched. -/
lemma mem_updateFirst_of_neg {α : Type} (p : α → Bool) (f : α → α) :
    ∀ (l : List α) (x : α), x ∈ l → p x = false → x ∈ updateFirst p f l := by
  intro l
  induction l with
  | nil => intro x h; simp at h
  | cons a as ih =>
    intro x hx hpx
    rcases List.mem_cons.mp hx with rfl | hmem
    · simp [updateFirst, hpx]
    · by_cases hpa : p a = true
      · simp only [updateFirst, hpa, if_pos]
        exact List.mem_cons_of_mem _ hmem
      · have : updateFirst p f (a :: as) = a :: updateFirst p f as := by
          simp [updateFirst, hpa]
        rw [this]
        exact List.mem_cons_of_mem _ (ih x hmem hpx)

/-- The updated image of the first match is in the updated list. -/
lemma find?_mem_updateFirst {α : Type} (p : α → Bool) (f : α → α) :
    ∀ (l : List α) (x : α), l.find? p = some x → f x ∈ updateFirst p f l := by
  intro l
  induction l with
  | nil => intro x h; simp [List.find?] at h
  | cons a as ih =>
    intro x h
    by_cases hpa : p a = true
    · rw [List.find?_cons_of_pos _ hpa] at h
      obtain rfl : a = x := by injection h
      simp [updateFirst, hpa]
    · rw [List.find?_cons_of_neg _ (by simpa using hpa)] at h
      have : updateFirst p f (a :: as) = a :: updateFirst p f as := by
        simp [updateFirst, hpa]
      rw [this]
      exact List.mem_cons_of_mem _ (ih x h)

/-! ## Embedding-worker claims -/

/-- C6 counterexample: the claim "whenever a checkpoint is in state
`EMBEDDED`, every stored chunk of that source carries a vector" is false.
From a state with one `PROCESSED` checkpoint and two vectorless chunks of
`a.md`, a single successful `embed_chunk` run on chunk 0 sets the checkpoint
to `EMBEDDED` while chunk 1 still has no vector. -/
theorem c6_embedded_before_all_chunks_counterexample :
    (embed_chunk_once (.ok [1, 2]) "a.md" 0 "handbook"
      { checkpoints :=
          [{ commit_id := "c1", file_path := "a.md", state := .PROCESSED }],
        documents :=
          [{ collection_id := "handbook", source := "a.md", chunk_index := 0,
             content := "x", meta_length := 1 },
           { collection_id := "handbook", source := "a.md", chunk_index := 1,
             content := "y", meta_length := 1 }] }).1 =
      { checkpoints :=
          [{ commit_id := "c1", file_path := "a.md", state := .EMBEDDED }],
        documents :=
          [{ collection_id := "handbook", source := "a.md", chunk_index := 0,
             content := "x", meta_length := 1, content_vector := some [1, 2],
             has_tsv := true },
           { collection_id := "handbook", source := "a.md", chunk_index := 1,
             content := "y", meta_length := 1, content_vector := none }] } := by
  decide

/-- C6 amended: `embed_chunk` moves the first non-`DELETED` checkpoint of the
source to `EMBEDDED` as soon as ONE chunk of the source is successfully
embedded and persisted; it does not wait for the source's other chunks, and
any other chunk row — in particular one with no vector — survives the run
unchanged. -/
theorem c6_embedded_after_single_chunk (db : DB) (s c : String) (i : Nat)
    (vec : List Int) (ch d2 : DocumentRow) (cp : Checkpoint)
    (hfind : db.documents.find? (chunkKey s i c) = some ch)
    (hcp : db.checkpoints.find?
      (fun x => x.file_path == s && x.state != CheckpointState.DELETED) =
        some cp)
    (hd2 : d2 ∈ db.documents) (hnk : chunkKey s i c d2 = false) :
    { cp with state := CheckpointState.EMBEDDED } ∈
        (embed_chunk_once (.ok vec) s i c db).1.checkpoints ∧
      d2 ∈ (embed_chunk_once (.ok vec) s i c db).1.documents := by
  simp only [embed_chunk_once, hfind]
  constructor
  · exact find?_mem_updateFirst _ _ _ cp hcp
  · exact mem_updateFirst_of_neg _ _ _ d2 hd2 hnk

/-- Witness for C6 amended: with two vectorless chunks of `a.md` and a
`PROCESSED` checkpoint, embedding chunk 0 yields an `EMBEDDED` checkpoint
while the untouched chunk 1 (vector `none`) is still stored. -/
theorem c6_embedded_after_single_chunk_witness :
    { commit_id := "c1", file_path := "a.md",
      state := CheckpointState.EMBEDDED, error_message := none } ∈
      (embed_chunk_once (.ok [1, 2]) "a.md" 0 "handbook"
        { checkpoints :=
            [{ commit_id := "c1", file_path := "a.md", state := .PROCESSED }],
          documents :=
            [{ collection_id := "handbook", source := "a.md",
               chunk_index := 0, content := "x", meta_length := 1 },
             { collection_id := "handbook", source := "a.md",
               chunk_index := 1, content := "y",
               meta_length := 1 }] }).1.checkpoints ∧
    { collection_id := "handbook", source := "a.md", chunk_index := 1,
      content := "y", meta_length := 1, content_vector := none,
      has_tsv := false } ∈
      (embed_chunk_once (.ok [1, 2]) "a.md" 0 "handbook"
        { checkpoints :=
            [{ commit_id := "c1", file_path := "a.md", state := .PROCESSED }],
          documents :=
            [{ collection_id := "handbook", source := "a.md",
               chunk_index := 0, content := "x", meta_length := 1 },
             { collection_id := "handbook", source := "a.md",
               chunk_index := 1, content := "y",
               meta_length := 1 }] }).1.documents := by
  exact c6_embedded_after_single_chunk
    { checkpoints :=
        [{ commit_id := "c1", file_path := "a.md", state := .PROCESSED }],
      documents :=
        [{ collection_id := "handbook", source := "a.md", chunk_index := 0,
           content := "x", meta_length := 1 },
         { collection_id := "handbook", source := "a.md", chunk_index := 1,
           content := "y", meta_length := 1 }] }
    "a.md" "handbook" 0 [1, 2]
    { collection_id := "handbook", source := "a.md", chunk_index := 0,
      content := "x", meta_length := 1 }
    { collection_id := "handbook", source := "a.md", chunk_index := 1,
      content := "y", meta_length := 1 }
    { commit_id := "c1", file_path := "a.md", state := .PROCESSED }
    (by decide) (by decide) (by decide) (by decide)

/-- C5 counterexample: the claim "only on exhaustion of the retries is the
checkpoint marked `EMBED_ERROR` …; the checkpoint is not moved to an error
state while retries remain" is false. On the very first failing run — with
all 3 retries still remaining — the `except` branch already rewrites the
`PROCESSED` checkpoint to the error state `ERROR` (not `EMBED_ERROR`) with
the message, and the task then requests a retry; and after the full retry
budget the exhausted task leaves the checkpoint in `ERROR`, never
`EMBED_ERROR`, with fixed 60-second delays rather than back-off. -/
theorem c5_error_before_exhaustion_counterexample :
    (embed_chunk_once (.error "boom") "a.md" 0 "handbook"
      { checkpoints :=
          [{ commit_id := "c1", file_path := "a.md", state := .PROCESSED }],
        documents :=
          [{ collection_id := "handbook", source := "a.md", chunk_index := 0,
             content := "x", meta_length := 1 }] }) =
      ({ checkpoints :=
           [{ commit_id := "c1", file_path := "a.md", state := .ERROR,
              error_message := some "boom" }],
         documents :=
           [{ collection_id := "handbook", source := "a.md", chunk_index := 0,
              content := "x", meta_length := 1 }] },
       .failedRetry "boom") ∧
    (embed_chunk_task (fun _ => .error "boom") "a.md" 0 "handbook"
      { checkpoints :=
          [{ commit_id := "c1", file_path := "a.md", state := .PROCESSED }],
        documents :=
          [{ collection_id := "handbook", source := "a.md", chunk_index := 0,
             content := "x", meta_length := 1 }] }) =
      ({ checkpoints :=
           [{ commit_id := "c1", file_path := "a.md", state := .ERROR,
              error_message := some "boom" }],
         documents :=
           [{ collection_id := "handbook", source := "a.md", chunk_index := 0,
              content := "x", meta_length := 1 }] },
       4, [60, 60, 60]) ∧
    CheckpointState.ERROR ≠ CheckpointState.EMBED_ERROR := by
  refine ⟨by decide, by decide, by decide⟩

/-- C5 amended: on EVERY embedding failure — not only on exhaustion —
`embed_chunk` immediately rewrites the first checkpoint with the source's
file path to state `ERROR` (the schema's `EMBED_ERROR` is never used) with
the error message, then requests a retry; the job runner re-runs it after a
fixed 60-second delay (no back-off) up to `max_retries = 3`, so an
always-failing embedder yields exactly 4 runs, delays `[60, 60, 60]`, an
unchanged document table, and a final checkpoint in `ERROR` carrying the last
run's message. -/
theorem c5_error_marked_immediately (db : DB) (s c : String) (i : Nat)
    (msgs : Nat → String) (ch : DocumentRow) (cp : Checkpoint)
    (hfind : db.documents.find? (chunkKey s i c) = some ch)
    (hcp : db.checkpoints.find? (fun x => x.file_path == s) = some cp) :
    ((embed_chunk_once (.error (msgs 0)) s i c db).1.checkpoints.find?
        (fun x => x.file_path == s) =
      some { cp with state := .ERROR, error_message := some (msgs 0) }) ∧
    (embed_chunk_once (.error (msgs 0)) s i c db).2 = .failedRetry (msgs 0) ∧
    (embed_chunk_task (fun k => .error (msgs k)) s i c db).2.1 = 4 ∧
    (embed_chunk_task (fun k => .error (msgs k)) s i c db).2.2 =
      [60, 60, 60] ∧
    (embed_chunk_task (fun k => .error (msgs k)) s i c db).1.documents =
      db.documents ∧
    (embed_chunk_task (fun k => .error (msgs k)) s i c db).1.checkpoints.find?
        (fun x => x.file_path == s) =
      some { cp with state := .ERROR, error_message := some (msgs 3) } := by
  have hpres : ∀ (e : String) (x : Checkpoint), (x.file_path == s) = true → (({ x with state := CheckpointState.ERROR, error_message := some e } : Checkpoint).file_path == s) = true :=
    fun _ _ hx => hx
  have honce : ∀ (e : String) (d : DB),
      d.documents.find? (chunkKey s i c) = some ch →
      embed_chunk_once (.error e) s i c d =
        ({ d with checkpoints := embedErrSet s e d.checkpoints },
          .failedRetry e) := by
    intro e d hd
    simp [embed_chunk_once, embedErrSet, hd]
  have h0 := honce (msgs 0) db hfind
  have step : ∀ (e : String) (l : List Checkpoint) (x : Checkpoint),
      l.find? (fun y => y.file_path == s) = some x →
      (embedErrSet s e l).find? (fun y => y.file_path == s) =
        some { x with state := CheckpointState.ERROR, error_message := some e } :=
    fun e l x h => updateFirst_find?_pres _ _ (hpres e) l x h
  refine ⟨?_, ?_, ?_, ?_, ?_, ?_⟩
  · rw [h0]; exact step (msgs 0) _ _ hcp
  · rw [h0]
  · simp [embed_chunk_task, embedRetryLoop, honce, hfind]
  · simp [embed_chunk_task, embedRetryLoop, honce, hfind]
  · simp [embed_chunk_task, embedRetryLoop, honce, hfind]
  · have hfin := step (msgs 3) _ _ (step (msgs 2) _ _ (step (msgs 1) _ _
      (step (msgs 0) _ _ hcp)))
    simpa [embed_chunk_task, embedRetryLoop, honce, hfind] using hfin

/-- Witness for C5 amended at a concrete store and failing embedder. -/
theorem c5_error_marked_immediately_witness :
    ((embed_chunk_once (.error "m0") "a.md" 0 "handbook"
      { checkpoints :=
          [{ commit_id := "c1", file_path := "a.md", state := .PROCESSED }],
        documents :=
          [{ collection_id := "handbook", source := "a.md", chunk_index := 0,
             content := "x", meta_length := 1 }] }).1.checkpoints.find?
        (fun x => x.file_path == "a.md") =
      some { commit_id := "c1", file_path := "a.md", state := .ERROR,
             error_message := some "m0" }) ∧
    (embed_chunk_task (fun k => .error (toString k)) "a.md" 0 "handbook"
      { checkpoints :=
          [{ commit_id := "c1", file_path := "a.md", state := .PROCESSED }],
        documents :=
          [{ collection_id := "handbook", source := "a.md", chunk_index := 0,
             content := "x", meta_length := 1 }] }).2.2 = [60, 60, 60] := by
  constructor
  · have h := c5_error_marked_immediately
      { checkpoints :=
          [{ commit_id := "c1", file_path := "a.md", state := .PROCESSED }],
        documents :=
          [{ collection_id := "handbook", source := "a.md", chunk_index := 0,
             content := "x", meta_length := 1 }] }
      "a.md" "handbook" 0 (fun _ => "m0")
      { collection_id := "handbook", source := "a.md", chunk_index := 0,
        content := "x", meta_length := 1 }
      { commit_id := "c1", file_path := "a.md", state := .PROCESSED }
      (by decide) (by decide)
    exact h.1
  · have h := c5_error_marked_immediately
      { checkpoints :=
          [{ commit_id := "c1", file_path := "a.md", state := .PROCESSED }],
        documents :=
          [{ collection_id := "handbook", source := "a.md", chunk_index := 0,
             content := "x", meta_length := 1 }] }
      "a.md" "handbook" 0 (fun k => toString k)
      { collection_id := "handbook", source := "a.md", chunk_index := 0,
        content := "x", meta_length := 1 }
      { commit_id := "c1", file_path := "a.md", state := .PROCESSED }
      (by decide) (by decide)
    exact h.2.2.2.1

/-! ## Retrieval read-path claims -/

/-- C8 counterexample: `build_source_url` does NOT realise the claimed
transform (strip root, strip `.md` suffix, drop `_index`/`README` segments,
prefix base). Its extra `.replace(".md", "")` and substring (not segment)
replaces diverge from the claimed transform on in-scope paths:
`content/handbook/READMEs.md` is mangled to `…/s` (claimed: `…/READMEs`),
`content/handbook/a.md.md` to `…/a` (claimed: `…/a.md`), and a direction
`foo.md.erb` to `…/foo.erb` (claimed: `…/foo.md.erb`). -/
theorem c8_build_source_url_counterexample :
    build_source_url "handbook" "content/handbook/READMEs.md" =
      "https://handbook.gitlab.com/s" ∧
    specCollectionUrl "https://handbook.gitlab.com/" "content/handbook/"
      "content/handbook/READMEs.md" = "https://handbook.gitlab.com/READMEs" ∧
    build_source_url "handbook" "content/handbook/READMEs.md" ≠
      specCollectionUrl "https://handbook.gitlab.com/" "content/handbook/"
        "content/handbook/READMEs.md" ∧
    build_source_url "handbook" "content/handbook/a.md.md" =
      "https://handbook.gitlab.com/a" ∧
    specCollectionUrl "https://handbook.gitlab.com/" "content/handbook/"
      "content/handbook/a.md.md" = "https://handbook.gitlab.com/a.md" ∧
    build_source_url "handbook" "content/handbook/a.md.md" ≠
      specCollectionUrl "https://handbook.gitlab.com/" "content/handbook/"
        "content/handbook/a.md.md" ∧
    build_source_url "direction" "source/direction/foo.md.erb" =
      "https://about.gitlab.com/direction/foo.erb" ∧
    specCollectionUrl "https://about.gitlab.com/direction/"
      "source/direction/" "source/direction/foo.md.erb" =
      "https://about.gitlab.com/direction/foo.md.erb" ∧
    build_source_url "direction" "source/direction/foo.md.erb" ≠
      specCollectionUrl "https://about.gitlab.com/direction/"
        "source/direction/" "source/direction/foo.md.erb" := by
  refine ⟨by decide, by decide, by decide, by decide, by decide, by decide,
    by decide, by decide, by decide⟩

/-- C8 amended: for the `"handbook"` collection, `build_source_url` strips
the `content/handbook/` root and a trailing `.md`, then removes every
remaining occurrence of `.md`, `_index` and `README` as SUBSTRINGS anywhere
in the path (not only whole segments), and prepends the handbook public base
URL; for `"direction"` the same transform against `source/direction/` and
the direction base URL; any other collection returns the raw file path
unchanged. On paths where `.md` occurs only as the extension and
`_index`/`README` only as whole segments this coincides with the spec's
segment transform — in particular `content/handbook/security/_index.md`
still maps to `https://handbook.gitlab.com/security/`. -/
theorem c8_build_source_url_amended (cid p : String) :
    build_source_url cid p =
      (if cid = "handbook" then
        specOccurrenceUrl "https://handbook.gitlab.com/" "content/handbook/" p
      else if cid = "direction" then
        specOccurrenceUrl "https://about.gitlab.com/direction/"
          "source/direction/" p
      else p) ∧
    build_source_url "handbook" "content/handbook/security/_index.md" =
      "https://handbook.gitlab.com/security/" ∧
    specCollectionUrl "https://handbook.gitlab.com/" "content/handbook/"
      "content/handbook/security/_index.md" =
      "https://handbook.gitlab.com/security/" ∧
    build_source_url "direction" "source/direction/ops/README.md" =
      "https://about.gitlab.com/direction/ops/" ∧
    build_source_url "other" "raw/path.txt" = "raw/path.txt" := by
  refine ⟨?_, by decide, by decide, by decide, by decide⟩
  by_cases h1 : cid = "handbook"
  · simp [build_source_url, specOccurrenceUrl, h1]
  · by_cases h2 : cid = "direction" <;>
      simp [build_source_url, specOccurrenceUrl, h1, h2]

/-- C9 counterexample: the claim that the aggregated sources preserve the
first-seen order of the ranked results is false — the aggregate is a Python
`set`. Two ranked lists with opposite first-seen orders (one with a
duplicate chunk of the same source) produce the very same aggregate, so no
first-seen order survives in it, while the spec-side ordered deduplication
distinguishes them. -/
theorem c9_sources_order_counterexample :
    (generate_rag_context
      [{ content := "t1", collection_id := "other", source := "pa" },
       { content := "t2", collection_id := "other", source := "pb" },
       { content := "t1", collection_id := "other", source := "pa" }]).2 =
      (generate_rag_context
        [{ content := "t2", collection_id := "other", source := "pb" },
         { content := "t1", collection_id := "other", source := "pa" }]).2 ∧
    firstSeenUrls
      [{ content := "t1", collection_id := "other", source := "pa" },
       { content := "t2", collection_id := "other", source := "pb" },
       { content := "t1", collection_id := "other", source := "pa" }] ≠
      firstSeenUrls
        [{ content := "t2", collection_id := "other", source := "pb" },
         { content := "t1", collection_id := "other", source := "pa" }] := by
  constructor
  · decide
  · decide

/-- C9 amended: duplicate source URLs from multiple chunks of a source are
deduplicated in the aggregated sources, but the aggregate is an unordered
set: membership is exactly "some ranked row maps to the URL", and the
aggregate is invariant under any permutation of the ranked results — no
first-seen order is preserved or representable. -/
theorem c9_sources_dedup_unordered (rows rows2 : List SearchRow) (u : String)
    (hperm : rows.Perm rows2) :
    (u ∈ (generate_rag_context rows).2 ↔
      ∃ r ∈ rows, build_source_url r.collection_id r.source = u) ∧
    (generate_rag_context rows).2 = (generate_rag_context rows2).2 := by
  constructor
  · simp [generate_rag_context]
  · exact List.toFinset_eq_of_perm _ _
      (hperm.map (fun r => build_source_url r.collection_id r.source))

/-- Witness for C9 amended on a concrete pair of permuted ranked lists. -/
theorem c9_sources_dedup_unordered_witness :
    ("pa" ∈ (generate_rag_context
      [{ content := "t1", collection_id := "other", source := "pa" },
       { content := "t2", collection_id := "other", source := "pb" }]).2 ↔
      ∃ r ∈ [({ content := "t1", collection_id := "other", source := "pa" } :
          SearchRow),
        { content := "t2", collection_id := "other", source := "pb" }],
        build_source_url r.collection_id r.source = "pa") ∧
    (generate_rag_context
      [{ content := "t1", collection_id := "other", source := "pa" },
       { content := "t2", collection_id := "other", source := "pb" }]).2 =
      (generate_rag_context
        [{ content := "t2", collection_id := "other", source := "pb" },
         { content := "t1", collection_id := "other", source := "pa" }]).2 := by
  exact c9_sources_dedup_unordered
    [{ content := "t1", collection_id := "other", source := "pa" },
     { content := "t2", collection_id := "other", source := "pb" }]
    [{ content := "t2", collection_id := "other", source := "pb" },
     { content := "t1", collection_id := "other", source := "pa" }]
    "pa" (by decide)

/-! ## Orchestrator lemmas: aborted cycles never touch the commit tracker -/

/-- A failing primitive write leaves the state exactly as it was. -/
lemma tryOp_error_eq {fa : Option Nat} {f : SyncSt → SyncSt} {s t : SyncSt}
    (h : tryOp fa f s = .error t) : t = s := by
  unfold tryOp at h
  split at h
  · exact (Except.error.inj h).symm
  · exact Except.noConfusion h

/-- A successful primitive write preserves the trackers when its operation
does. -/
lemma tryOp_ok_trackers {fa : Option Nat} {f : SyncSt → SyncSt} {s t : SyncSt}
    (hf : (f s).db.trackers = s.db.trackers)
    (h : tryOp fa f s = .ok t) : t.db.trackers = s.db.trackers := by
  unfold tryOp at h
  split at h
  · exact Except.noConfusion h
  · have := Except.ok.inj h
    subst this
    exact hf

/-- `step2` preserves the trackers, both on success and on failure, when its
two operations do. -/
lemma step2_trackers {fa : Option Nat} {op1 op2 : SyncSt → SyncSt}
    (h1 : ∀ u, (op1 u).db.trackers = u.db.trackers)
    (h2 : ∀ u, (op2 u).db.trackers = u.db.trackers) (s : SyncSt) :
    (∀ t, step2 fa op1 op2 s = .ok t → t.db.trackers = s.db.trackers) ∧
    (∀ t, step2 fa op1 op2 s = .error t → t.db.trackers = s.db.trackers) := by
  rcases htry : tryOp fa op1 s with t1 | s1
  · have ht1 : t1 = s := tryOp_error_eq htry
    subst ht1
    constructor
    · intro t h
      simp only [step2, htry] at h
      exact Except.noConfusion h
    · intro t h
      simp only [step2, htry] at h
      have := Except.error.inj h
      subst this
      rfl
  · have hs1 : s1.db.trackers = s.db.trackers := tryOp_ok_trackers (h1 s) htry
    constructor
    · intro t h
      simp only [step2, htry] at h
      exact (tryOp_ok_trackers (h2 s1) h).trans hs1
    · intro t h
      simp only [step2, htry] at h
      have := tryOp_error_eq h
      subst this
      exact hs1

/-- A dispatch loop preserves the trackers, both on success and on failure,
when its two per-file operations do. -/
lemma runLoop_trackers {fa : Option Nat} {op1 op2 : String → SyncSt → SyncSt}
    (h1 : ∀ fp u, (op1 fp u).db.trackers = u.db.trackers)
    (h2 : ∀ fp u, (op2 fp u).db.trackers = u.db.trackers) :
    ∀ (l : List String) (s : SyncSt),
      (∀ t, runLoop fa op1 op2 l s = .ok t → t.db.trackers = s.db.trackers) ∧
      (∀ t, runLoop fa op1 op2 l s = .error t →
        t.db.trackers = s.db.trackers) := by
  intro l
  induction l with
  | nil =>
    intro s
    constructor
    · intro t h
      have := Except.ok.inj h
      subst this
      rfl
    · intro t h
      exact Except.noConfusion h
  | cons fp rest ih =>
    intro s
    have hstep := @step2_trackers fa (op1 fp) (op2 fp) (h1 fp) (h2 fp) s
    rcases hm : step2 fa (op1 fp) (op2 fp) s with t1 | s1
    · constructor
      · intro t h
        simp only [runLoop, hm] at h
        exact Except.noConfusion h
      · intro t h
        simp only [runLoop, hm] at h
        have := Except.error.inj h
        subst this
        exact hstep.2 t1 hm
    · constructor
      · intro t h
        simp only [runLoop, hm] at h
        exact ((ih s1).1 t h).trans (hstep.1 s1 hm)
      · intro t h
        simp only [runLoop, hm] at h
        exact ((ih s1).2 t h).trans (hstep.1 s1 hm)

/-- A dispatch phase that fails — at whatever injected point — leaves the
commit trackers untouched: the tracker upsert is the very last write. -/
lemma dispatchPhase_error_trackers (cfg : RepoConfig) (fa : Option Nat)
    (pidStr latest : String) (now : Nat) (te : Bool)
    (procList delList : List String) (s t : SyncSt)
    (h : dispatchPhase cfg fa pidStr latest now te procList delList s =
      .error t) : t.db.trackers = s.db.trackers := by
  have hp := @runLoop_trackers fa (cpUpsertPending latest)
    (sendProcessTask cfg latest)
    (fun _ _ => rfl) (fun _ _ => rfl) procList s
  rcases hm1 : runLoop fa (cpUpsertPending latest) (sendProcessTask cfg latest)
      procList s with t1 | s1
  · simp only [dispatchPhase, hm1] at h
    have := Except.error.inj h
    subst this
    exact hp.2 t1 hm1
  · have hs1 : s1.db.trackers = s.db.trackers := hp.1 s1 hm1
    have hd := @runLoop_trackers fa (cpUpsertDeleted latest)
      (docDeleteOp cfg)
      (fun _ _ => rfl) (fun _ _ => rfl) delList s1
    rcases hm2 : runLoop fa (cpUpsertDeleted latest) (docDeleteOp cfg)
        delList s1 with t2 | s2
    · simp only [dispatchPhase, hm1, hm2] at h
      have := Except.error.inj h
      subst this
      exact (hd.2 t2 hm2).trans hs1
    · simp only [dispatchPhase, hm1, hm2] at h
      have hts : t = s2 := tryOp_error_eq h
      rw [hts]
      exact (hd.1 s2 hm2).trans hs1

/-- An aborted repository cycle never writes the commit tracker. -/
lemma repoCycle_abort_trackers (cfg : RepoConfig) (remote : RepoRemote)
    (failAt : Option Nat) (now : Nat) (s : SyncSt)
    (h : (repoCycle cfg remote failAt now s).2 = true) :
    (repoCycle cfg remote failAt now s).1.db.trackers = s.db.trackers := by
  rcases hpr : remote.project_id_result with e | pid
  · simp [repoCycle, hpr]
  · rcases hdet : determine_file_changes cfg remote.tree remote.commitsSince
        remote.allCommits s.db.checkpoints
        ((s.db.trackers.find? (fun t => t.project_id == toString pid)).map
          (·.last_commit_id)) with _ | changes
    · simp [repoCycle, hpr, hdet]
    · rcases hdp : dispatchPhase cfg failAt (toString pid) changes.2.2 now
          (s.db.trackers.find?
            (fun t => t.project_id == toString pid)).isSome
          (changes.1.sort (· ≤ ·)) (changes.2.1.sort (· ≤ ·)) s with t' | s'
      · simp only [repoCycle, hpr, hdet, hdp]
        exact dispatchPhase_error_trackers _ _ _ _ _ _ _ _ _ _ hdp
      · simp only [repoCycle, hpr, hdet, hdp] at h
        exact Bool.noConfusion h

/-- C7: failure isolation in the sync cycle. A repository whose resolution
fails — the remote unreachable (`get_project_id` raises) or the change-set
resolver itself failing — aborts with the state fully unchanged; any aborted
cycle, aborting at whatever point of resolution or dispatch, leaves the
repository's commit tracker exactly as it was (the tracker is written only
after every to-process and to-delete item has been dispatched); and the loop
always continues with the remaining tracked repositories, a failing head
repository contributing nothing. -/
theorem c7_repo_failure_isolation (cfg : RepoConfig) (remote : RepoRemote)
    (failAt : Option Nat) (now : Nat) (s : SyncSt) (r : RepoTask)
    (rest : List RepoTask) (e : String) (pid : Nat) :
    (remote.project_id_result = .error e →
      repoCycle cfg remote failAt now s = (s, true)) ∧
    (remote.project_id_result = .ok pid →
      determine_file_changes cfg remote.tree remote.commitsSince
          remote.allCommits s.db.checkpoints
          ((s.db.trackers.find? (fun t => t.project_id == toString pid)).map
            (·.last_commit_id)) = none →
      repoCycle cfg remote failAt now s = (s, true)) ∧
    ((repoCycle cfg remote failAt now s).2 = true →
      (repoCycle cfg remote failAt now s).1.db.trackers = s.db.trackers) ∧
    (repoCycle r.cfg r.remote r.failAt now s = (s, true) →
      fetch_files (r :: rest) now s = fetch_files rest now s) ∧
    fetch_files (r :: rest) now s =
      fetch_files rest now (repoCycle r.cfg r.remote r.failAt now s).1 := by
  refine ⟨?_, ?_, repoCycle_abort_trackers cfg remote failAt now s, ?_, rfl⟩
  · intro h
    simp [repoCycle, h]
  · intro h hdet
    simp [repoCycle, h, hdet]
  · intro h
    simp [fetch_files, h]

/-- Witness for C7: two tracked repositories whose remotes are permanently
unreachable, and one whose remote answers but serves no commits (so
resolution fails at `get_commits(...)[0]`) — every cycle aborts with the
state unchanged, trackers untouched, and the loop drops the failing head
repository while continuing with the rest. -/
theorem c7_repo_failure_isolation_witness :
    repoCycle { subdir := "docs" } { project_id_result := .error "down" }
      none 5 {} = ({}, true) ∧
    repoCycle { subdir := "docs" } { project_id_result := .ok 7 } none 5 {} =
      ({}, true) ∧
    (repoCycle { subdir := "docs" } { project_id_result := .error "down" }
      none 5 {}).1.db.trackers = ({} : SyncSt).db.trackers ∧
    fetch_files
      [{ cfg := { subdir := "docs" },
         remote := { project_id_result := .error "down" } },
       { cfg := { subdir := "x" },
         remote := { project_id_result := .error "down2" } }] 5 {} =
      fetch_files
        [{ cfg := { subdir := "x" },
           remote := { project_id_result := .error "down2" } }] 5 {} := by
  refine ⟨?_, ?_, ?_, ?_⟩
  · exact (c7_repo_failure_isolation { subdir := "docs" }
      { project_id_result := .error "down" } none 5 {}
      { cfg := { subdir := "docs" },
        remote := { project_id_result := .error "down" } } [] "down" 0).1 rfl
  · exact (c7_repo_failure_isolation { subdir := "docs" }
      { project_id_result := .ok 7 } none 5 {}
      { cfg := { subdir := "docs" },
        remote := { project_id_result := .error "down" } } [] "down" 7).2.1
      rfl rfl
  · exact (c7_repo_failure_isolation { subdir := "docs" }
      { project_id_result := .error "down" } none 5 {}
      { cfg := { subdir := "docs" },
        remote := { project_id_result := .error "down" } } [] "down" 0).2.2.1
      rfl
  · exact (c7_repo_failure_isolation { subdir := "docs" }
      { project_id_result := .error "down" } none 5 {}
      { cfg := { subdir := "docs" },
        remote := { project_id_result := .error "down" } }
      [{ cfg := { subdir := "x" },
         remote := { project_id_result := .error "down2" } }]
      "down" 0).2.2.2.1
      ((c7_repo_failure_isolation { subdir := "docs" }
        { project_id_result := .error "down" } none 5 {}
        { cfg := { subdir := "docs" },
          remote := { project_id_result := .error "down" } } [] "down" 0).1
        rfl)

end GitlabChatbot
